import Mathlib

/-!
Verification of the request-adaptation logic of the PixelAlchemy backend
(`src/server.js`): the `/generate` validation middleware, prompt
normalization, payload construction, data-URL stripping, and
response extraction, shallowly embedded as Lean functions.

JavaScript truthiness is modelled where the source relies on it: an
optional string field is "truthy" when it is present and non-empty
(`negative || default`, `!prompt`, `!data || !mimeType`).
-/

namespace PixelAlchemy

/-- An optional `{data, mimeType}` object of the request body (`image` or `mask`).
Sub-fields are optional so that a present object missing a sub-field is
representable, as in the JavaScript. -/
structure ImageField where
  data : Option String
  mimeType : Option String
deriving DecidableEq, Repr

/-- The JSON body of a `/generate` request: `const { prompt, negative, image, mask } = req.body`. -/
structure GenBody where
  prompt : Option String
  negative : Option String
  image : Option ImageField
  mask : Option ImageField
deriving DecidableEq, Repr

/-- JavaScript truthiness of an optional string: `undefined` and `""` are falsy. -/
def truthyStr : Option String → Bool
  | none => false
  | some s => !s.isEmpty

/-- The check `if (req.body.image) { const {data, mimeType} = ...; if (!data || !mimeType) ... }`:
true when the object is present but one of its sub-fields is falsy. -/
def imageFieldInvalid : Option ImageField → Bool
  | none => false
  | some f => !(truthyStr f.data) || !(truthyStr f.mimeType)

/-- `validateGenerateRequest` middleware (server.js lines 29-62): returns
`some (error, details)` for the 400 response it sends, `none` when it calls `next()`. -/
def validateGenerateRequest (b : GenBody) : Option (String × String) :=
  if !(truthyStr b.prompt) then
    some ("Missing required field", "The 'prompt' field is required")
  else if imageFieldInvalid b.image then
    some ("Invalid image data", "When providing an image, both 'data' and 'mimeType' are required")
  else if imageFieldInvalid b.mask then
    some ("Invalid mask data", "When providing a mask, both 'data' and 'mimeType' are required")
  else
    none

/-- `{inlineData: {data, mimeType}}` as built by `base64ToGenerativePart`,
and as carried by response parts. -/
structure InlineData where
  data : String
  mimeType : String
deriving DecidableEq, Repr

/-- JavaScript `String.prototype.split` on the comma separator, on the
character list of the string. The result is never empty. -/
def splitOnComma : List Char → List (List Char)
  | [] => [[]]
  | c :: rest =>
    match splitOnComma rest with
    | [] => [[]]
    | g :: gs => if c = ',' then [] :: g :: gs else (c :: g) :: gs

/-- `base64Data.split(',').pop()` (server.js line 90): the last group of the
comma-split, i.e. everything after the last comma. -/
def splitPop (s : String) : String :=
  ⟨(splitOnComma s.data).getLastD s.data⟩

/-- `base64ToGenerativePart` (server.js lines 88-97): strips a data-URL
prefix by keeping what follows the last comma, and wraps the result with
the MIME type as an inline-data part. -/
def base64ToGenerativePart (base64Data mimeType : String) : InlineData :=
  { data := splitPop base64Data, mimeType := mimeType }

/-- The fallback negative text used when the caller supplies none
(server.js line 107). -/
def defaultNegative : String := "blurry, low quality, watermarks"

/-- `` `${prompt}. --negative ${negative || '...'}` `` (server.js line 107):
the normalized prompt, with `||` falling back on a missing or empty `negative`. -/
def fullPrompt (prompt : String) (negative : Option String) : String :=
  prompt ++ ". --negative " ++
    (match negative with
     | some s => if s.isEmpty then defaultNegative else s
     | none => defaultNegative)

/-- One element of the `parts` array of an upstream request. -/
inductive ReqPart where
  | text (t : String)
  | inline (d : InlineData)
deriving DecidableEq, Repr

/-- The `request` variable of the handler: either a plain string prompt
(text-to-image) or `{contents: [{parts}]}` (image-conditioned). -/
inductive GenRequestPayload where
  | plain (s : String)
  | contents (parts : List ReqPart)
deriving DecidableEq, Repr

/-- Payload construction (server.js lines 101-139): branch on
`image && image.data && image.mimeType`, build `[text, image]`, and push
the mask part when `mask && mask.data && mask.mimeType`. -/
def buildRequest (b : GenBody) : GenRequestPayload :=
  let fp := fullPrompt (b.prompt.getD "") b.negative
  match b.image with
  | some img =>
    if truthyStr img.data && truthyStr img.mimeType then
      let base := [ReqPart.text fp,
                   ReqPart.inline (base64ToGenerativePart (img.data.getD "") (img.mimeType.getD ""))]
      let parts :=
        match b.mask with
        | some m =>
          if truthyStr m.data && truthyStr m.mimeType then
            base ++ [ReqPart.inline (base64ToGenerativePart (m.data.getD "") (m.mimeType.getD ""))]
          else base
        | none => base
      GenRequestPayload.contents parts
    else
      GenRequestPayload.plain fp
  | none => GenRequestPayload.plain fp

/-- One part of an upstream response candidate: may carry inline image
data, may carry text. -/
structure RespPart where
  inlineData : Option InlineData
  text : Option String
deriving DecidableEq, Repr

/-- The `content` object of a candidate. -/
structure Content where
  parts : List RespPart
deriving DecidableEq, Repr

/-- One candidate of the upstream response. -/
structure Candidate where
  content : Option Content
  finishReason : String
deriving DecidableEq, Repr

/-- The upstream model response: a list of candidates. -/
structure UpstreamResponse where
  candidates : List Candidate
deriving DecidableEq, Repr

/-- `response.candidates?.[0]?.content?.parts?.find(p => p.inlineData)`
(server.js line 146). -/
def findImagePart (r : UpstreamResponse) : Option RespPart :=
  match r.candidates.head? with
  | some c =>
    match c.content with
    | some ct => ct.parts.find? (fun p => p.inlineData.isSome)
    | none => none
  | none => none

/-- `response.candidates?.[0]?.content?.parts?.[0]?.text` (server.js line 151). -/
def firstPartText (r : UpstreamResponse) : Option String :=
  match r.candidates.head? with
  | some c =>
    match c.content with
    | some ct =>
      match ct.parts.head? with
      | some p => p.text
      | none => none
    | none => none
  | none => none

/-- The fallback error message of server.js line 151. -/
def noImageFallback : String := "No image data returned from API and no error message found."

/-- `... .text || "No image data returned..."` (server.js line 151): the
text of the first candidate's first part when truthy, else the fallback. -/
def errorTextOf (r : UpstreamResponse) : String :=
  match firstPartText r with
  | some t => if t.isEmpty then noImageFallback else t
  | none => noImageFallback

/-- What `await model.generateContent(request)` does: either throws with a
message or resolves to a response. -/
inductive UpstreamResult where
  | thrown (message : String)
  | ok (response : UpstreamResponse)
deriving DecidableEq, Repr

/-- The JSON bodies the handler can send, with their status codes
(200 / 400 / 500). -/
inductive HttpResponse where
  | ok (image : String) (finishReason : String)
  | validationError (error : String) (details : String)
  | serverFailure (error : String) (details : String) (checkLogs : String)
deriving DecidableEq, Repr

/-- The HTTP status code of each response shape (server.js lines 33, 43, 53,
156, 163). -/
def statusOf : HttpResponse → Nat
  | .ok .. => 200
  | .validationError .. => 400
  | .serverFailure .. => 500

/-- The `try`/`catch` body of the `/generate` handler (server.js lines
100-168), for a request that passed validation: build the payload, invoke
the upstream model once, and extract the image or fail. The `catch` block
turns both an upstream throw and the no-image throw into the 500 response. -/
def handleGenerate (upstream : GenRequestPayload → UpstreamResult) (b : GenBody) : HttpResponse :=
  match upstream (buildRequest b) with
  | .thrown msg =>
    .serverFailure "Image Generation Failed." msg "Check server logs for full traceback."
  | .ok response =>
    match findImagePart response with
    | none =>
      .serverFailure "Image Generation Failed." (errorTextOf response)
        "Check server logs for full traceback."
    | some p =>
      .ok (match p.inlineData with | some d => d.data | none => "")
        (match response.candidates.head? with | some c => c.finishReason | none => "")

/-- The whole `/generate` route: validation middleware first, then the
handler. The second component counts how many times the upstream model is
invoked (0 when validation rejects, 1 otherwise: one call, no retry). -/
def post_generate (upstream : GenRequestPayload → UpstreamResult) (b : GenBody) :
    HttpResponse × Nat :=
  match validateGenerateRequest b with
  | some e => (.validationError e.1 e.2, 0)
  | none => (handleGenerate upstream b, 1)

/-- Modelled from the spec: a value "begins with a data-URL prefix
(e.g., `data:image/png;base64,`)" exactly when it starts with `data:`.
Used only to state what the spec asserts about prefix-free values. -/
def startsWithDataUrl (s : String) : Bool :=
  "data:".data.isPrefixOf s.data

/-! ### Helper lemmas about the comma split -/

/-- `splitOnComma` never returns the empty list. -/
lemma splitOnComma_ne_nil (l : List Char) : splitOnComma l ≠ [] := by
  cases l with
  | nil => simp [splitOnComma]
  | cons c rest =>
    cases h : splitOnComma rest with
    | nil => simp [splitOnComma, h]
    | cons g gs =>
      by_cases hc : c = ','
      · simp [splitOnComma, h, hc]
      · simp [splitOnComma, h, hc]

/-- On a comma-free list, the split is a single group: the list itself. -/
lemma splitOnComma_no_comma (l : List Char) (h : ',' ∉ l) : splitOnComma l = [l] := by
  induction l with
  | nil => rfl
  | cons c rest ih =>
    have hc : c ≠ ',' := fun hc => h (hc ▸ List.mem_cons_self c rest)
    have hrest : ',' ∉ rest := fun hr => h (List.mem_cons_of_mem c hr)
    rw [splitOnComma, ih hrest]
    simp [hc]

/-- A list containing a comma splits into at least two groups. -/
lemma splitOnComma_two_le (l : List Char) (h : ',' ∈ l) : 2 ≤ (splitOnComma l).length := by
  induction l with
  | nil => cases h
  | cons c rest ih =>
    obtain ⟨g, gs, hgg⟩ : ∃ g gs, splitOnComma rest = g :: gs := by
      cases hr : splitOnComma rest with
      | nil => exact absurd hr (splitOnComma_ne_nil rest)
      | cons g gs => exact ⟨g, gs, rfl⟩
    by_cases hc : c = ','
    · rw [splitOnComma, hgg]
      simp [hc]
    · have hrest : ',' ∈ rest := by
        rcases List.mem_cons.mp h with h1 | h1
        · exact absurd h1.symm hc
        · exact h1
      have := ih hrest
      rw [hgg] at this
      rw [splitOnComma, hgg]
      simpa [hc] using this

/-- The last group of the split, with a fixed default. -/
def lastGroup (l : List Char) : List Char :=
  (splitOnComma l).getLastD []

/-- `getLastD` does not depend on the default on a non-empty list. -/
lemma getLastD_of_ne_nil {α : Type} (l : List α) (h : l ≠ []) (d d' : α) :
    l.getLastD d = l.getLastD d' := by
  cases l with
  | nil => exact absurd rfl h
  | cons a t => rw [List.getLastD_cons, List.getLastD_cons]

/-- `splitPop` is the last group of the comma split of the characters. -/
lemma splitPop_eq_lastGroup (s : String) : splitPop s = ⟨lastGroup s.data⟩ := by
  unfold splitPop lastGroup
  exact congrArg String.mk (getLastD_of_ne_nil _ (splitOnComma_ne_nil s.data) _ _)

/-- Skipping a leading comma: the last group is unchanged. -/
lemma lastGroup_cons_comma (rest : List Char) :
    lastGroup (',' :: rest) = lastGroup rest := by
  obtain ⟨g, gs, hgg⟩ : ∃ g gs, splitOnComma rest = g :: gs := by
    cases hr : splitOnComma rest with
    | nil => exact absurd hr (splitOnComma_ne_nil rest)
    | cons g gs => exact ⟨g, gs, rfl⟩
  unfold lastGroup
  rw [splitOnComma, hgg]
  simp [List.getLastD_cons]

/-- Skipping a leading non-comma character: the last group is unchanged when
the rest still contains a comma, and is the whole list otherwise. -/
lemma lastGroup_cons_ne (c : Char) (rest : List Char) (hc : c ≠ ',') :
    lastGroup (c :: rest) = if ',' ∈ rest then lastGroup rest else c :: rest := by
  obtain ⟨g, gs, hgg⟩ : ∃ g gs, splitOnComma rest = g :: gs := by
    cases hr : splitOnComma rest with
    | nil => exact absurd hr (splitOnComma_ne_nil rest)
    | cons g gs => exact ⟨g, gs, rfl⟩
  unfold lastGroup
  rw [splitOnComma, hgg]
  simp only [hc, if_false]
  cases gs with
  | nil =>
    have hnc : ',' ∉ rest := by
      intro hmem
      have := splitOnComma_two_le rest hmem
      rw [hgg] at this
      simp at this
    have hg : g = rest := by
      have := splitOnComma_no_comma rest hnc
      rw [hgg] at this
      exact (List.cons.injEq _ _ _ _ ▸ this).1
    simp [hnc, hg, List.getLastD_cons]
  | cons h2 t2 =>
    have hcm : ',' ∈ rest := by
      by_contra hnc
      have := splitOnComma_no_comma rest hnc
      rw [hgg] at this
      simp at this
    simp [hcm, List.getLastD_cons]

/-- The last group of a comma-free list is the list itself. -/
lemma lastGroup_no_comma (l : List Char) (h : ',' ∉ l) : lastGroup l = l := by
  unfold lastGroup
  rw [splitOnComma_no_comma l h]
  rfl

/-- The last group never contains a comma. -/
lemma lastGroup_comma_free (l : List Char) : ',' ∉ lastGroup l := by
  induction l with
  | nil => simp [lastGroup, splitOnComma]
  | cons c rest ih =>
    by_cases hc : c = ','
    · subst hc
      rw [lastGroup_cons_comma]
      exact ih
    · rw [lastGroup_cons_ne c rest hc]
      by_cases hm : ',' ∈ rest
      · simpa [hm] using ih
      · simp only [hm, if_false]
        intro hmem
        rcases List.mem_cons.mp hmem with h1 | h1
        · exact hc h1.symm
        · exact hm h1

/-- A list containing a comma decomposes as everything up to its last comma,
the comma, then the (comma-free) last group. -/
lemma lastGroup_decomp (l : List Char) (h : ',' ∈ l) :
    ∃ r, l = r ++ ',' :: lastGroup l := by
  induction l with
  | nil => cases h
  | cons c rest ih =>
    by_cases hc : c = ','
    · subst hc
      rw [lastGroup_cons_comma]
      by_cases hm : ',' ∈ rest
      · obtain ⟨r, hr⟩ := ih hm
        exact ⟨',' :: r, by rw [List.cons_append, ← hr]⟩
      · exact ⟨[], by rw [lastGroup_no_comma rest hm]; rfl⟩
    · have hm : ',' ∈ rest := by
        rcases List.mem_cons.mp h with h1 | h1
        · exact absurd h1.symm hc
        · exact h1
      rw [lastGroup_cons_ne c rest hc]
      simp only [hm, if_true]
      obtain ⟨r, hr⟩ := ih hm
      exact ⟨c :: r, by rw [List.cons_append, ← hr]⟩

/-- The middleware calls `next()` exactly when the prompt is truthy and
neither optional object is present-but-malformed. -/
lemma validate_none_iff (b : GenBody) :
    validateGenerateRequest b = none ↔
      truthyStr b.prompt = true ∧ imageFieldInvalid b.image = false ∧
        imageFieldInvalid b.mask = false := by
  unfold validateGenerateRequest
  cases hp : truthyStr b.prompt <;>
    cases hi : imageFieldInvalid b.image <;>
      cases hm : imageFieldInvalid b.mask <;> simp

/-- `find?` over a list whose prefix all fails the predicate returns the
first later hit. -/
lemma find_of_prefix_none {α : Type} (p : α → Bool) (l1 : List α) (x : α) (l2 : List α)
    (h1 : ∀ q ∈ l1, p q = false) (hx : p x = true) :
    (l1 ++ x :: l2).find? p = some x := by
  induction l1 with
  | nil => simpa using List.find?_cons_of_pos l2 hx
  | cons a t ih =>
    have ha : ¬ p a = true := by
      simp [h1 a (List.mem_cons_self a t)]
    rw [List.cons_append, List.find?_cons_of_neg _ ha]
    exact ih (fun q hq => h1 q (List.mem_cons_of_mem a hq))

/-- A present object that passes the middleware check has truthy `data`
and `mimeType`. -/
lemma truthy_of_not_invalid (f : ImageField) (h : imageFieldInvalid (some f) = false) :
    truthyStr f.data = true ∧ truthyStr f.mimeType = true := by
  simp only [imageFieldInvalid] at h
  cases hd : truthyStr f.data <;> cases hm : truthyStr f.mimeType <;>
    rw [hd, hm] at h <;> simp_all

/-! ### The claims -/

/-- Claim C1: for every validated request the payload is determined solely
by presence of `image`: no image gives a plain string, image without mask
gives exactly the two parts text-then-image, image with mask gives exactly
the three parts text, image, mask. -/
theorem c1_payload_shape (b : GenBody) (hv : validateGenerateRequest b = none) :
    (b.image = none →
      buildRequest b = .plain (fullPrompt (b.prompt.getD "") b.negative)) ∧
    (∀ i, b.image = some i → b.mask = none →
      buildRequest b = .contents
        [.text (fullPrompt (b.prompt.getD "") b.negative),
         .inline (base64ToGenerativePart (i.data.getD "") (i.mimeType.getD ""))]) ∧
    (∀ i m, b.image = some i → b.mask = some m →
      buildRequest b = .contents
        [.text (fullPrompt (b.prompt.getD "") b.negative),
         .inline (base64ToGenerativePart (i.data.getD "") (i.mimeType.getD "")),
         .inline (base64ToGenerativePart (m.data.getD "") (m.mimeType.getD ""))]) := by
  obtain ⟨hp, hi, hm⟩ := (validate_none_iff b).mp hv
  refine ⟨?_, ?_, ?_⟩
  · intro h0
    simp [buildRequest, h0]
  · intro i hi2 hm2
    rw [hi2] at hi
    have hid := truthy_of_not_invalid i hi
    simp [buildRequest, hi2, hm2, hid.1, hid.2]
  · intro i m hi2 hm2
    rw [hi2] at hi
    rw [hm2] at hm
    have hid := truthy_of_not_invalid i hi
    have hmd := truthy_of_not_invalid m hm
    simp [buildRequest, hi2, hm2, hid.1, hid.2, hmd.1, hmd.2]

/-- Witness for C1 at a concrete validated request carrying both an image
and a mask: the payload is the three parts text, image, mask. -/
theorem c1_payload_shape_witness :
    buildRequest ⟨some "cat", none, some ⟨some "aW1n", some "image/png"⟩,
        some ⟨some "bWFzaw", some "image/png"⟩⟩ = .contents
      [.text (fullPrompt "cat" none),
       .inline (base64ToGenerativePart "aW1n" "image/png"),
       .inline (base64ToGenerativePart "bWFzaw" "image/png")] :=
  (c1_payload_shape _ (by decide)).2.2 ⟨some "aW1n", some "image/png"⟩
    ⟨some "bWFzaw", some "image/png"⟩ rfl rfl

/-- Claim C2: the normalized prompt is the prompt, then ". --negative ",
then the caller's negative text, with the fixed constant
"blurry, low quality, watermarks" when the caller supplies none; in
particular "cat" alone gives "cat. --negative blurry, low quality,
watermarks" and "cat" with "dog" gives "cat. --negative dog". -/
theorem c2_normalized_prompt (p : String) :
    fullPrompt p none = p ++ ". --negative " ++ "blurry, low quality, watermarks" ∧
    (∀ s : String, s.isEmpty = false →
      fullPrompt p (some s) = p ++ ". --negative " ++ s) ∧
    fullPrompt "cat" none = "cat. --negative blurry, low quality, watermarks" ∧
    fullPrompt "cat" (some "dog") = "cat. --negative dog" := by
  refine ⟨rfl, ?_, by decide, by decide⟩
  intro s hs
  simp [fullPrompt, hs]

/-- Witness for C2 at the concrete inputs of the claim. -/
theorem c2_normalized_prompt_witness :
    fullPrompt "cat" (some "dog") = "cat" ++ ". --negative " ++ "dog" :=
  (c2_normalized_prompt "cat").2.1 "dog" rfl

/-- Claim C10: a present-but-empty `negative` falls back to the default
text, exactly as if `negative` were absent. -/
theorem c10_empty_negative_default (p : String) :
    fullPrompt p (some "") = fullPrompt p none ∧
    fullPrompt p (some "") = p ++ ". --negative " ++ "blurry, low quality, watermarks" :=
  ⟨rfl, rfl⟩

/-- Counterexample to Claim C3 as stated: `"abc,def"` does not begin with a
data-URL prefix, yet the strip is not a no-op on it — the forwarded data is
`"def"`, the substring after its last comma. -/
theorem c3_counterexample :
    startsWithDataUrl "abc,def" = false ∧
    (base64ToGenerativePart "abc,def" "image/png").data ≠ "abc,def" ∧
    (base64ToGenerativePart "abc,def" "image/png").data = "def" := by
  decide

/-- Claim C3 (amended): the forwarded data is always exactly the substring
after the final comma — the comma-free tail of the value — and the strip is
a no-op precisely on values containing no comma, whether or not a data-URL
prefix is present. -/
theorem c3_strip_last_comma (s mimeType : String) :
    (',' ∉ s.data → (base64ToGenerativePart s mimeType).data = s) ∧
    (',' ∈ s.data →
      (∃ r : List Char,
        s.data = r ++ ',' :: ((base64ToGenerativePart s mimeType).data).data) ∧
      ',' ∉ ((base64ToGenerativePart s mimeType).data).data) := by
  have hval : (base64ToGenerativePart s mimeType).data = ⟨lastGroup s.data⟩ :=
    splitPop_eq_lastGroup s
  constructor
  · intro h
    rw [hval]
    cases s with
    | mk l => exact congrArg String.mk (lastGroup_no_comma l h)
  · intro h
    rw [hval]
    exact ⟨lastGroup_decomp s.data h, lastGroup_comma_free s.data⟩

/-- Witness for C3 (amended): a prefixed value keeps only what follows the
comma, and a comma-free value passes through unchanged. -/
theorem c3_strip_last_comma_witness :
    (base64ToGenerativePart "QUJD" "image/png").data = "QUJD" :=
  (c3_strip_last_comma "QUJD" "image/png").1 (by decide)

/-- Whether a candidate carries a part with inline image data. -/
def candidateHasInline (c : Candidate) : Bool :=
  match c.content with
  | some ct => ct.parts.any (fun p => p.inlineData.isSome)
  | none => false

/-- Stated from the claims' wording: the upstream response "contains at
least one part with inline image data", in any of its candidates. -/
def responseContainsInlineData (r : UpstreamResponse) : Bool :=
  r.candidates.any candidateHasInline

/-- A stand-in upstream collaborator used by the concrete witnesses. -/
def stubUpstream : GenRequestPayload → UpstreamResult :=
  fun _ => .thrown "unused"

/-- A minimal request body that passes validation, for concrete witnesses. -/
def promptOnlyBody : GenBody := ⟨some "cat", none, none, none⟩

/-- A response whose only inline-image part sits in the second candidate:
the first candidate carries only text. -/
def secondCandidateResp : UpstreamResponse :=
  ⟨[⟨some ⟨[⟨none, some "oops"⟩]⟩, "STOP"⟩,
    ⟨some ⟨[⟨some ⟨"SU1H", "image/png"⟩, none⟩]⟩, "STOP"⟩]⟩

/-- Counterexample to Claim C4 as stated: this response contains a part
with inline image data (in its second candidate), yet the handler does not
answer with a success JSON — the extraction scans only the first
candidate, finds nothing, and the thrown error yields the 500 body. -/
theorem c4_counterexample :
    responseContainsInlineData secondCandidateResp = true ∧
    post_generate (fun _ => .ok secondCandidateResp) promptOnlyBody =
      (.serverFailure "Image Generation Failed." "oops"
        "Check server logs for full traceback.", 1) := by
  decide

/-- Claim C4 (amended): for every upstream response whose *first candidate*
contains a part with inline image data, the body is a JSON object whose
`image` field is the base64 data of the first such part of that candidate,
unmodified, and whose `finishReason` is that candidate's completion reason,
verbatim; an inline part only in a later candidate is not found. -/
theorem c4_success_extraction (b : GenBody) (upstream : GenRequestPayload → UpstreamResult)
    (r : UpstreamResponse) (c : Candidate) (cs : List Candidate) (ct : Content)
    (l1 : List RespPart) (p : RespPart) (l2 : List RespPart) (d : InlineData)
    (hv : validateGenerateRequest b = none)
    (hu : upstream (buildRequest b) = .ok r)
    (hc : r.candidates = c :: cs)
    (hct : c.content = some ct)
    (hparts : ct.parts = l1 ++ p :: l2)
    (hl1 : ∀ q ∈ l1, q.inlineData = none)
    (hd : p.inlineData = some d) :
    post_generate upstream b = (.ok d.data c.finishReason, 1) := by
  have hfind : findImagePart r = some p := by
    unfold findImagePart
    rw [hc]
    simp only [List.head?_cons]
    rw [hct]
    show ct.parts.find? (fun q => q.inlineData.isSome) = some p
    rw [hparts]
    exact find_of_prefix_none _ l1 p l2 (fun q hq => by simp [hl1 q hq]) (by simp [hd])
  simp [post_generate, hv, handleGenerate, hu, hfind, hd, hc]

/-- Witness for C4 (amended): a first candidate holding a text part then an
inline part yields the inline data and the finish reason. -/
theorem c4_success_extraction_witness :
    post_generate (fun _ => .ok ⟨[⟨some ⟨[⟨none, some "here"⟩,
        ⟨some ⟨"SU1H", "image/png"⟩, none⟩]⟩, "STOP"⟩]⟩) promptOnlyBody =
      (.ok "SU1H" "STOP", 1) :=
  c4_success_extraction promptOnlyBody _ _ _ [] ⟨[⟨none, some "here"⟩,
      ⟨some ⟨"SU1H", "image/png"⟩, none⟩]⟩ [⟨none, some "here"⟩]
    ⟨some ⟨"SU1H", "image/png"⟩, none⟩ [] ⟨"SU1H", "image/png"⟩
    (by decide) rfl rfl rfl rfl (by decide) rfl

/-- Claim C5: when the upstream response contains no part with inline image
data, the handler fails with the 500 body whose detail is the text of the
first candidate's first part when that text is non-empty, and the fixed
fallback message when no such text exists. -/
theorem c5_no_image_error (b : GenBody) (upstream : GenRequestPayload → UpstreamResult)
    (r : UpstreamResponse)
    (hv : validateGenerateRequest b = none)
    (hu : upstream (buildRequest b) = .ok r)
    (hni : responseContainsInlineData r = false) :
    post_generate upstream b =
      (.serverFailure "Image Generation Failed." (errorTextOf r)
        "Check server logs for full traceback.", 1) ∧
    (∀ t, firstPartText r = some t → t.isEmpty = false → errorTextOf r = t) ∧
    ((∀ t, firstPartText r = some t → t.isEmpty = true) →
      errorTextOf r = noImageFallback) := by
  have hfind : findImagePart r = none := by
    unfold findImagePart
    cases hc : r.candidates with
    | nil => rfl
    | cons c cs =>
      have hcand : candidateHasInline c = false := by
        unfold responseContainsInlineData at hni
        rw [hc] at hni
        simp only [List.any_cons, Bool.or_eq_false_iff] at hni
        exact hni.1
      simp only [List.head?_cons]
      cases hct : c.content with
      | none => rfl
      | some ct =>
        unfold candidateHasInline at hcand
        rw [hct] at hcand
        apply List.find?_eq_none.mpr
        intro p hp
        simp only [List.any_eq_false] at hcand
        simp [hcand p hp]
  refine ⟨by simp [post_generate, hv, handleGenerate, hu, hfind], ?_, ?_⟩
  · intro t ht he
    unfold errorTextOf
    rw [ht]
    simp [he]
  · intro hall
    unfold errorTextOf
    cases hft : firstPartText r with
    | none => rfl
    | some t => simp [hall t hft]

/-- A no-image response whose first part carries the text "oops". -/
def textOnlyResp : UpstreamResponse := ⟨[⟨some ⟨[⟨none, some "oops"⟩]⟩, "STOP"⟩]⟩

/-- Witness for C5: the concrete text-only response produces the 500 body
with the extracted error text. -/
theorem c5_no_image_error_witness :
    post_generate (fun _ => .ok textOnlyResp) promptOnlyBody =
      (.serverFailure "Image Generation Failed." (errorTextOf textOnlyResp)
        "Check server logs for full traceback.", 1) :=
  (c5_no_image_error promptOnlyBody _ textOnlyResp (by decide) rfl (by decide)).1

/-- Claim C6: a throwing upstream call produces the server-error status and
the `{error, details, checkLogs}` body, with `details` the thrown message;
the upstream is invoked exactly once (no retry) and the message is passed
through whatever the failure kind. -/
theorem c6_upstream_throw (b : GenBody) (upstream : GenRequestPayload → UpstreamResult)
    (msg : String)
    (hv : validateGenerateRequest b = none)
    (ht : upstream (buildRequest b) = .thrown msg) :
    post_generate upstream b =
      (.serverFailure "Image Generation Failed." msg
        "Check server logs for full traceback.", 1) ∧
    statusOf (post_generate upstream b).1 = 500 := by
  have h1 : post_generate upstream b =
      (.serverFailure "Image Generation Failed." msg
        "Check server logs for full traceback.", 1) := by
    simp [post_generate, hv, handleGenerate, ht]
  exact ⟨h1, by rw [h1]; rfl⟩

/-- Witness for C6 with a concrete quota-style failure message. -/
theorem c6_upstream_throw_witness :
    post_generate (fun _ => .thrown "quota exceeded") promptOnlyBody =
      (.serverFailure "Image Generation Failed." "quota exceeded"
        "Check server logs for full traceback.", 1) :=
  (c6_upstream_throw promptOnlyBody _ "quota exceeded" (by decide) rfl).1

/-- Claim C7: a request with no `prompt` gets the 400 validation body for
the missing field and the upstream collaborator is invoked zero times. -/
theorem c7_missing_prompt (b : GenBody) (upstream : GenRequestPayload → UpstreamResult)
    (hp : b.prompt = none) :
    post_generate upstream b =
      (.validationError "Missing required field" "The 'prompt' field is required", 0) ∧
    statusOf (post_generate upstream b).1 = 400 := by
  have h1 : validateGenerateRequest b =
      some ("Missing required field", "The 'prompt' field is required") := by
    simp [validateGenerateRequest, hp, truthyStr]
  have h2 : post_generate upstream b =
      (.validationError "Missing required field" "The 'prompt' field is required", 0) := by
    simp [post_generate, h1]
  exact ⟨h2, by rw [h2]; rfl⟩

/-- Witness for C7: the empty request body is rejected without any
upstream call. -/
theorem c7_missing_prompt_witness :
    post_generate stubUpstream ⟨none, none, none, none⟩ =
      (.validationError "Missing required field" "The 'prompt' field is required", 0) :=
  (c7_missing_prompt ⟨none, none, none, none⟩ stubUpstream rfl).1

/-- Claim C8: a present `image` or `mask` lacking `data` or `mimeType`
makes validation fail — a 400 body, zero upstream calls — and for the mask
this holds with no assumption on the image at all. -/
theorem c8_malformed_object_rejected (b : GenBody)
    (upstream : GenRequestPayload → UpstreamResult)
    (h : (∃ i, b.image = some i ∧ (i.data = none ∨ i.mimeType = none)) ∨
         (∃ m, b.mask = some m ∧ (m.data = none ∨ m.mimeType = none))) :
    ∃ e d, post_generate upstream b = (.validationError e d, 0) := by
  cases hval : validateGenerateRequest b with
  | some e => exact ⟨e.1, e.2, by simp [post_generate, hval]⟩
  | none =>
    exfalso
    obtain ⟨hp, hi, hm⟩ := (validate_none_iff b).mp hval
    rcases h with ⟨i, hbi, hbad⟩ | ⟨m, hbm, hbad⟩
    · rw [hbi] at hi
      have hti := truthy_of_not_invalid i hi
      rcases hbad with h1 | h1 <;> rw [h1] at hti <;> simp [truthyStr] at hti
    · rw [hbm] at hm
      have htm := truthy_of_not_invalid m hm
      rcases hbad with h1 | h1 <;> rw [h1] at htm <;> simp [truthyStr] at htm

/-- Witness for C8: a mask lacking `data` is rejected, although the image
field is absent entirely. -/
theorem c8_malformed_object_rejected_witness :
    ∃ e d, post_generate stubUpstream
      ⟨some "cat", none, none, some ⟨none, some "image/png"⟩⟩ =
        (.validationError e d, 0) :=
  c8_malformed_object_rejected _ stubUpstream
    (Or.inr ⟨⟨none, some "image/png"⟩, rfl, Or.inl rfl⟩)

/-- A body with a well-formed mask and no image at all. -/
def maskNoImageBody : GenBody :=
  ⟨some "cat", none, none, some ⟨some "bWFzaw", some "image/png"⟩⟩

/-- Counterexample to Claim C9 as stated: a request with a mask and no
image passes validation, the upstream collaborator is invoked, and the
payload is the plain text prompt — the request is processed, not
rejected. -/
theorem c9_counterexample :
    validateGenerateRequest maskNoImageBody = none ∧
    (post_generate stubUpstream maskNoImageBody).2 = 1 ∧
    buildRequest maskNoImageBody =
      .plain "cat. --negative blurry, low quality, watermarks" := by
  decide

/-- Claim C9 (amended): a request with `mask` present but `image` absent is
not rejected; when the prompt is present and the mask well-formed it passes
validation and is processed as plain text-to-image, the mask silently
ignored. -/
theorem c9_mask_without_image_ignored (b : GenBody)
    (upstream : GenRequestPayload → UpstreamResult) (m : ImageField)
    (hp : truthyStr b.prompt = true)
    (hi : b.image = none)
    (hm : b.mask = some m)
    (hmd : truthyStr m.data = true)
    (hmt : truthyStr m.mimeType = true) :
    validateGenerateRequest b = none ∧
    post_generate upstream b = (handleGenerate upstream b, 1) ∧
    buildRequest b = .plain (fullPrompt (b.prompt.getD "") b.negative) := by
  have hv : validateGenerateRequest b = none := by
    apply (validate_none_iff b).mpr
    refine ⟨hp, ?_, ?_⟩
    · rw [hi]
      rfl
    · rw [hm]
      simp [imageFieldInvalid, hmd, hmt]
  exact ⟨hv, by simp [post_generate, hv], by simp [buildRequest, hi]⟩

/-- Witness for C9 (amended) at the concrete mask-and-no-image body. -/
theorem c9_mask_without_image_ignored_witness :
    validateGenerateRequest maskNoImageBody = none ∧
    post_generate stubUpstream maskNoImageBody =
      (handleGenerate stubUpstream maskNoImageBody, 1) ∧
    buildRequest maskNoImageBody = .plain (fullPrompt "cat" none) :=
  c9_mask_without_image_ignored maskNoImageBody stubUpstream
    ⟨some "bWFzaw", some "image/png"⟩ (by decide) rfl rfl (by decide) (by decide)

end PixelAlchemy
